import Mathlib

/-!
Shallow embedding of the bookmark-api backend (NestJS + Prisma).

The repository's `src/` holds `UserService.editUser` (user/user.service.ts)
and the e2e test suite.  The auth service, auth guard and bookmark service
appear in the repository only through their tests and the spec, so those
components are modelled from the spec (each such definition says so in its
doc comment).  Machine values (ids, timestamps) are Nat; the database is an
explicit in-memory state threaded through each operation; thrown exceptions
become `Except` errors.
-/

/-- A salted password hash.  The digest is a pure function of salt and
password; one-way-ness is outside the model. -/
structure PwHash where
  salt : String
  digest : String
deriving DecidableEq, Repr

/-- Modelled from the spec: "hashes password with a salted one-way hash"
(argon2 in the real code, which is not under src/). -/
def hashPw (salt password : String) : PwHash :=
  { salt := salt, digest := salt ++ "#" ++ password }

/-- Modelled from the spec: hash verification recomputes the digest from the
stored salt and the supplied password and compares. -/
def verifyPw (password : String) (h : PwHash) : Bool :=
  h.digest == h.salt ++ "#" ++ password

/-- The Prisma `User` model: id, unique email, password hash, profile
fields, timestamps (spec section 3; the schema file is not under src/). -/
structure User where
  id : Nat
  email : String
  hash : PwHash
  firstName : Option String
  lastName : Option String
  createdAt : Nat
  updatedAt : Nat
deriving DecidableEq, Repr

/-- The Prisma `Bookmark` model: id, title, link, description, owner user
id, timestamps (spec section 3). -/
structure Bookmark where
  id : Nat
  title : String
  link : String
  description : Option String
  userId : Nat
  createdAt : Nat
  updatedAt : Nat
deriving DecidableEq, Repr

/-- The database state: the two tables plus Prisma's autoincrement
sequences for the primary keys. -/
structure Db where
  users : List User
  bookmarks : List Bookmark
  nextUserId : Nat
  nextBookmarkId : Nat
deriving DecidableEq, Repr

def emptyDb : Db :=
  { users := [], bookmarks := [], nextUserId := 1, nextBookmarkId := 1 }

/-- `EditUserDto` (src/user/dto): optional email, firstName, lastName.
An absent field is `none` and is not written. -/
structure EditUserDto where
  email : Option String
  firstName : Option String
  lastName : Option String
deriving DecidableEq, Repr

def emptyEditUserDto : EditUserDto := { email := none, firstName := none, lastName := none }

/-- The `data: { ...dto }` spread of `prisma.user.update`: each field that
the DTO carries overwrites the stored column, absent fields are untouched. -/
def applyEditUserDto (dto : EditUserDto) (u : User) : User :=
  { u with
    email := dto.email.getD u.email
    firstName := match dto.firstName with | some s => some s | none => u.firstName
    lastName := match dto.lastName with | some s => some s | none => u.lastName }

inductive DbError where
  | recordNotFound
  | uniqueViolation
deriving DecidableEq, Repr

/-- True when writing the DTO's email column would hit the unique-email
constraint: some row other than the one being updated already holds it. -/
def emailClash (db : Db) (userId : Nat) (dto : EditUserDto) : Bool :=
  match dto.email with
  | some e => db.users.any (fun v => v.id != userId && v.email == e)
  | none => false

/-- The row as written back by `prisma.user.update`: the DTO's fields
spread over the stored row, with the `@updatedAt` column bumped. -/
def updatedUser (dto : EditUserDto) (u : User) (now : Nat) : User :=
  { applyEditUserDto dto u with updatedAt := now }

/-- `prisma.user.update` with `where: { id: userId }` and `data: { ...dto }`:
finds the row by primary key (P2025 error if absent), and — modelled from
the spec's unique-email invariant on the schema — fails with a
unique-constraint violation if the DTO writes an email already held by a
different row. -/
def prismaUserUpdate (db : Db) (userId : Nat) (dto : EditUserDto) (now : Nat) :
    Except DbError (User × Db) :=
  match db.users.find? (fun u => u.id == userId) with
  | none => .error .recordNotFound
  | some u =>
    if emailClash db userId dto then .error .uniqueViolation
    else
      .ok (updatedUser dto u now,
        { db with users := db.users.map (fun v =>
            if v.id == userId then updatedUser dto u now else v) })

/-- The shape `PartialBy<User, 'hash'>`: the row object returned to the
client, whose hash field became optional so it can be deleted. -/
structure UserView where
  id : Nat
  email : String
  hash : Option PwHash
  firstName : Option String
  lastName : Option String
  createdAt : Nat
  updatedAt : Nat
deriving DecidableEq, Repr

def UserView.ofUser (u : User) : UserView :=
  { id := u.id, email := u.email, hash := some u.hash, firstName := u.firstName,
    lastName := u.lastName, createdAt := u.createdAt, updatedAt := u.updatedAt }

/-- The `delete user.hash` statement. -/
def deleteHash (v : UserView) : UserView := { v with hash := none }

/-- `UserService.editUser` (src/user/user.service.ts, lines 11-24): update
the row through Prisma, delete the hash from the returned object, return
it.  A Prisma error propagates (the method has no try/catch). -/
def UserService.editUser (db : Db) (userId : Nat) (dto : EditUserDto) (now : Nat) :
    Except DbError (UserView × Db) :=
  match prismaUserUpdate db userId dto now with
  | .error e => .error e
  | .ok (user, db') => .ok (deleteHash (UserView.ofUser user), db')

/- Sample states used by the witness theorems. -/

def sampleUser : User :=
  { id := 1, email := "mu@gmail.com", hash := hashPw "s0" "123", firstName := none,
    lastName := none, createdAt := 0, updatedAt := 0 }

def sampleUser2 : User :=
  { id := 2, email := "other@gmail.com", hash := hashPw "s1" "456", firstName := none,
    lastName := none, createdAt := 0, updatedAt := 0 }

def sampleDb : Db :=
  { users := [sampleUser, sampleUser2], bookmarks := [], nextUserId := 3, nextBookmarkId := 1 }

def sampleOutUser : User := { sampleUser with updatedAt := 5 }

def sampleOutView : UserView :=
  { id := 1, email := "mu@gmail.com", hash := none, firstName := none, lastName := none,
    createdAt := 0, updatedAt := 5 }

def sampleOutDb : Db := { sampleDb with users := [sampleOutUser, sampleUser2] }

/-! Auth service and guard, modelled from the spec (the auth module is not
under src/; only its e2e tests are). -/

/-- The JWT payload: user id (`sub`), email, expiry. -/
structure TokenPayload where
  sub : Nat
  email : String
  exp : Nat
deriving DecidableEq, Repr

/-- A bearer token as transmitted: payload plus signature (possibly
forged). -/
structure Token where
  payload : TokenPayload
  sig : Nat
deriving DecidableEq, Repr

/-- Modelled from the spec: the keyed signature over the payload with the
server secret, abstracted to a fixed checksum function. -/
def signature (secret : Nat) (p : TokenPayload) : Nat :=
  1 + secret * 31 + p.sub * 37 + p.exp * 41 + p.email.length * 43

/-- Modelled from the spec: signing — "a signed, time-limited token
carrying user id + email". -/
def signToken (secret : Nat) (p : TokenPayload) : Token :=
  { payload := p, sig := signature secret p }

/-- Modelled from the spec: verification — the signature must match the
payload under the server secret and the token must not be expired. -/
def verifyToken (secret now : Nat) (t : Token) : Bool :=
  t.sig == signature secret t.payload && now < t.payload.exp

inductive AuthError where
  | conflictError
  | unauthorizedError
deriving DecidableEq, Repr

/-- Server-side auth configuration: token secret and lifetime. -/
structure AuthConfig where
  secret : Nat
  tokenTtl : Nat
deriving DecidableEq, Repr

/-- Modelled from the spec: `signup(email, password)` — ConflictError if the
email exists; otherwise store the user with a salted one-way hash of the
password and return a signed token bound to the new user's id and email.
`salt` stands for the random salt drawn by the hash library, `now` for the
clock.  `signupUser` is the row it inserts. -/
def signupUser (db : Db) (email password salt : String) (now : Nat) : User :=
  { id := db.nextUserId, email := email, hash := hashPw salt password,
    firstName := none, lastName := none, createdAt := now, updatedAt := now }

def signup (cfg : AuthConfig) (db : Db) (email password salt : String) (now : Nat) :
    Except AuthError (Token × Db) :=
  if db.users.any (fun u => u.email == email) then
    .error .conflictError
  else
    .ok (signToken cfg.secret { sub := db.nextUserId, email := email, exp := now + cfg.tokenTtl },
      { db with
        users := db.users ++ [signupUser db email password salt now],
        nextUserId := db.nextUserId + 1 })

/-- Modelled from the spec: `login(email, password)` — UnauthorizedError if
the user is absent or the hash does not match; otherwise a signed token. -/
def login (cfg : AuthConfig) (db : Db) (email password : String) (now : Nat) :
    Except AuthError Token :=
  match db.users.find? (fun u => u.email == email) with
  | none => .error .unauthorizedError
  | some u =>
    if verifyPw password u.hash then
      .ok (signToken cfg.secret { sub := u.id, email := u.email, exp := now + cfg.tokenTtl })
    else .error .unauthorizedError

/-- The decoded identity the guard injects into the request context. -/
structure Identity where
  userId : Nat
  email : String
deriving DecidableEq, Repr

/-- The `Authorization` header of an incoming request: absent, or a scheme
word plus a token. -/
inductive AuthHeader where
  | missing
  | presented (scheme : String) (token : Token)
deriving DecidableEq, Repr

/-- An incoming request: its auth header and the identity slot the guard
fills for downstream handlers. -/
structure Request where
  header : AuthHeader
  user : Option Identity
deriving DecidableEq, Repr

inductive GuardError where
  | unauthorized401
deriving DecidableEq, Repr

/-- Modelled from the spec: the auth guard — extract the bearer token from
the header, verify signature and expiry, fail with 401 if invalid or
missing, else inject the decoded identity into the request context. -/
def authGuard (secret now : Nat) (req : Request) : Except GuardError Request :=
  match req.header with
  | .missing => .error .unauthorized401
  | .presented scheme tok =>
    if scheme == "Bearer" && verifyToken secret now tok then
      .ok { req with user := some { userId := tok.payload.sub, email := tok.payload.email } }
    else .error .unauthorized401

/-! Bookmark service, modelled from the spec (the bookmark module is not
under src/; only its e2e tests are). -/

/-- `CreateBookmarkDto`: title, link, optional description. -/
structure CreateBookmarkDto where
  title : String
  link : String
  description : Option String
deriving DecidableEq, Repr

/-- `EditBookmarkDto`: all fields optional; an absent field is not
written. -/
structure EditBookmarkDto where
  title : Option String
  link : Option String
  description : Option String
deriving DecidableEq, Repr

/-- The `data: { ...dto }` spread for bookmark edits. -/
def applyEditBookmarkDto (dto : EditBookmarkDto) (b : Bookmark) : Bookmark :=
  { b with
    title := dto.title.getD b.title
    link := dto.link.getD b.link
    description := match dto.description with | some s => some s | none => b.description }

inductive BookmarkError where
  | notFound
  | accessDenied
deriving DecidableEq, Repr

/-- Modelled from the spec: list bookmarks `where userId = currentUser.id`. -/
def getBookmarks (db : Db) (userId : Nat) : List Bookmark :=
  db.bookmarks.filter (fun b => b.userId == userId)

/-- Modelled from the spec: read one bookmark by id, scoped to the owning
user. -/
def getBookmarkById (db : Db) (userId bookmarkId : Nat) : Option Bookmark :=
  db.bookmarks.find? (fun b => b.id == bookmarkId && b.userId == userId)

/-- The row `prisma.bookmark.create` inserts: DTO fields, the current user
as owner, a fresh autoincrement id. -/
def newBookmark (db : Db) (userId : Nat) (dto : CreateBookmarkDto) (now : Nat) : Bookmark :=
  { id := db.nextBookmarkId, title := dto.title, link := dto.link,
    description := dto.description, userId := userId, createdAt := now, updatedAt := now }

/-- Modelled from the spec: create a bookmark owned by the current user and
return it. -/
def createBookmark (db : Db) (userId : Nat) (dto : CreateBookmarkDto) (now : Nat) :
    Bookmark × Db :=
  (newBookmark db userId dto now,
   { db with
      bookmarks := db.bookmarks ++ [newBookmark db userId dto now],
      nextBookmarkId := db.nextBookmarkId + 1 })

/-- The edited bookmark row: DTO fields over the stored row, `@updatedAt`
bumped. -/
def updatedBookmark (dto : EditBookmarkDto) (b : Bookmark) (now : Nat) : Bookmark :=
  { applyEditBookmarkDto dto b with updatedAt := now }

/-- Modelled from the spec: edit a bookmark by id — not-found if no such
row, access denied unless the requester owns it, else write the DTO. -/
def editBookmarkById (db : Db) (userId bookmarkId : Nat) (dto : EditBookmarkDto) (now : Nat) :
    Except BookmarkError (Bookmark × Db) :=
  match db.bookmarks.find? (fun b => b.id == bookmarkId) with
  | none => .error .notFound
  | some b =>
    if b.userId != userId then .error .accessDenied
    else
      .ok (updatedBookmark dto b now,
        { db with bookmarks := db.bookmarks.map (fun x =>
            if x.id == bookmarkId then updatedBookmark dto b now else x) })

/-- Modelled from the spec: delete a bookmark by id, owner-scoped. -/
def deleteBookmarkById (db : Db) (userId bookmarkId : Nat) : Except BookmarkError Db :=
  match db.bookmarks.find? (fun b => b.id == bookmarkId) with
  | none => .error .notFound
  | some b =>
    if b.userId != userId then .error .accessDenied
    else .ok { db with bookmarks := db.bookmarks.filter (fun x => x.id != bookmarkId) }

/-! Reachability and invariants. -/

/-- One public mutating operation of the API.  `login` reads only and has
no step. -/
inductive ApiStep : Db → Db → Prop where
  | signupStep (db : Db) (cfg : AuthConfig) (email password salt : String) (now : Nat)
      (tok : Token) (db' : Db) :
      signup cfg db email password salt now = .ok (tok, db') → ApiStep db db'
  | editUserStep (db : Db) (userId : Nat) (dto : EditUserDto) (now : Nat)
      (v : UserView) (db' : Db) :
      UserService.editUser db userId dto now = .ok (v, db') → ApiStep db db'
  | createBookmarkStep (db : Db) (userId : Nat) (dto : CreateBookmarkDto) (now : Nat) :
      ApiStep db (createBookmark db userId dto now).2
  | editBookmarkStep (db : Db) (userId bookmarkId : Nat) (dto : EditBookmarkDto) (now : Nat)
      (b : Bookmark) (db' : Db) :
      editBookmarkById db userId bookmarkId dto now = .ok (b, db') → ApiStep db db'
  | deleteBookmarkStep (db : Db) (userId bookmarkId : Nat) (db' : Db) :
      deleteBookmarkById db userId bookmarkId = .ok db' → ApiStep db db'

/-- Database states reachable from the empty database through the public
operations. -/
def Reachable (db : Db) : Prop := Relation.ReflTransGen ApiStep emptyDb db

/-- No two stored users share an email. -/
def EmailsUnique (db : Db) : Prop :=
  db.users.Pairwise (fun a b => a.email ≠ b.email)

/-- The inductive invariant carried through the step relation: unique
emails, unique user ids, and all ids below the autoincrement cursor. -/
def DbInv (db : Db) : Prop :=
  EmailsUnique db ∧
  db.users.Pairwise (fun a b => a.id ≠ b.id) ∧
  ∀ u, u ∈ db.users → u.id < db.nextUserId

/-- All bookmark ids sit below the autoincrement cursor, so a fresh id
never collides with a stored row. -/
def BookmarkIdsFresh (db : Db) : Prop :=
  ∀ b, b ∈ db.bookmarks → b.id < db.nextBookmarkId

/- Sample values used by the auth witnesses. -/

def sampleCfg : AuthConfig := { secret := 7, tokenTtl := 60 }

def signupDb : Db :=
  { users := [signupUser emptyDb "mu@gmail.com" "123" "s0" 0],
    bookmarks := [], nextUserId := 2, nextBookmarkId := 1 }

def signupTok : Token :=
  signToken 7 { sub := 1, email := "mu@gmail.com", exp := 60 }

def sampleReq : Request := { header := .presented "Bearer" signupTok, user := none }

def sampleGuardedReq : Request :=
  { header := .presented "Bearer" signupTok,
    user := some { userId := 1, email := "mu@gmail.com" } }

/- Sample values used by the bookmark witnesses (from the e2e suite). -/

def sampleCreateDto : CreateBookmarkDto :=
  { title := "First Bookmark", link := "https://google.com/",
    description := some "Bookmark initial population" }

def sampleEditBookmarkDto : EditBookmarkDto :=
  { title := none, link := none, description := some "Bookmark edited" }

def sampleBookmark : Bookmark :=
  { id := 1, title := "First Bookmark", link := "https://google.com/",
    description := some "Bookmark initial population", userId := 1,
    createdAt := 0, updatedAt := 0 }

def bookmarkDb : Db :=
  { users := [sampleUser], bookmarks := [sampleBookmark],
    nextUserId := 2, nextBookmarkId := 2 }

def bookmarkDbDeleted : Db :=
  { users := [sampleUser], bookmarks := [], nextUserId := 2, nextBookmarkId := 2 }

/-- Unpacking a successful `prisma.user.update`: the row was found, no
unique-constraint clash, and the table got the updated row in place. -/
theorem prismaUserUpdate_ok_unpack (db : Db) (userId : Nat) (dto : EditUserDto) (now : Nat)
    (u2 : User) (db' : Db)
    (h : prismaUserUpdate db userId dto now = .ok (u2, db')) :
    ∃ u, db.users.find? (fun x => x.id == userId) = some u ∧
      emailClash db userId dto = false ∧
      u2 = updatedUser dto u now ∧
      db' = { db with users := db.users.map (fun x =>
        if x.id == userId then updatedUser dto u now else x) } := by
  unfold prismaUserUpdate at h
  split at h
  · exact absurd h (by simp)
  · rename_i u hf
    split at h
    · exact absurd h (by simp)
    · rename_i hc
      simp only [Except.ok.injEq, Prod.mk.injEq] at h
      exact ⟨u, hf, by simpa using hc, h.1.symm, h.2.symm⟩

/-- Unpacking a successful `UserService.editUser` call in terms of the
found row. -/
theorem editUser_ok_unpack (db : Db) (userId : Nat) (dto : EditUserDto) (now : Nat)
    (v : UserView) (db' : Db)
    (h : UserService.editUser db userId dto now = .ok (v, db')) :
    ∃ u, db.users.find? (fun x => x.id == userId) = some u ∧
      emailClash db userId dto = false ∧
      v = deleteHash (UserView.ofUser (updatedUser dto u now)) ∧
      db' = { db with users := db.users.map (fun x =>
        if x.id == userId then updatedUser dto u now else x) } := by
  unfold UserService.editUser at h
  cases hp : prismaUserUpdate db userId dto now with
  | error e => rw [hp] at h; exact absurd h (by simp)
  | ok p =>
    obtain ⟨u2, db2⟩ := p
    rw [hp] at h
    simp only [Except.ok.injEq, Prod.mk.injEq] at h
    obtain ⟨u, hf, hc, hu2, hdb2⟩ := prismaUserUpdate_ok_unpack db userId dto now u2 db2 hp
    exact ⟨u, hf, hc, by rw [← h.1, hu2], by rw [← h.2, hdb2]⟩

/-- C1: a successful `UserService.editUser` call returns a value whose hash
field is absent — the password hash is never serialized to clients. -/
theorem editUser_returns_no_hash (db : Db) (userId : Nat) (dto : EditUserDto) (now : Nat)
    (v : UserView) (db' : Db)
    (h : UserService.editUser db userId dto now = .ok (v, db')) : v.hash = none := by
  obtain ⟨u, _, _, hv, _⟩ := editUser_ok_unpack db userId dto now v db' h
  rw [hv]; rfl

/-- Witness for C1 at a concrete store. -/
theorem editUser_returns_no_hash_witness : sampleOutView.hash = none :=
  editUser_returns_no_hash sampleDb 1 emptyEditUserDto 5 sampleOutView sampleOutDb rfl

/-- C8: a successful `UserService.editUser` call rewrites only rows whose id
is the given user id, leaves every other user row unchanged, and leaves the
bookmark table untouched. -/
theorem editUser_frame (db : Db) (userId : Nat) (dto : EditUserDto) (now : Nat)
    (v : UserView) (db' : Db)
    (h : UserService.editUser db userId dto now = .ok (v, db')) :
    db'.bookmarks = db.bookmarks ∧
    (∃ w : User, w.id = userId ∧
      db'.users = db.users.map (fun x => if x.id == userId then w else x)) ∧
    ∀ x, x ∈ db.users → x.id ≠ userId → x ∈ db'.users := by
  obtain ⟨u, hf, _, _, hdb⟩ := editUser_ok_unpack db userId dto now v db' h
  have hid : u.id = userId := by simpa using List.find?_some hf
  have hwid : (updatedUser dto u now).id = userId := hid
  subst hdb
  refine ⟨rfl, ⟨updatedUser dto u now, hwid, rfl⟩, ?_⟩
  intro x hx hxid
  exact List.mem_map.mpr ⟨x, hx, by simp [hxid]⟩

/-- Witness for C8 at a concrete two-user store. -/
theorem editUser_frame_witness :
    sampleOutDb.bookmarks = sampleDb.bookmarks ∧
    (∃ w : User, w.id = 1 ∧
      sampleOutDb.users = sampleDb.users.map (fun x => if x.id == 1 then w else x)) ∧
    ∀ x, x ∈ sampleDb.users → x.id ≠ 1 → x ∈ sampleOutDb.users :=
  editUser_frame sampleDb 1 emptyEditUserDto 5 sampleOutView sampleOutDb rfl

/-- C9: editing a stored user with a DTO that carries no fields keeps the
row's email, firstName, lastName and hash, and returns that row minus its
hash. -/
theorem editUser_empty_dto (db : Db) (userId now : Nat) (u : User)
    (hfind : db.users.find? (fun x => x.id == userId) = some u) :
    ∃ u' db',
      UserService.editUser db userId emptyEditUserDto now
        = .ok (deleteHash (UserView.ofUser u'), db') ∧
      u' ∈ db'.users ∧ u'.id = u.id ∧ u'.email = u.email ∧
      u'.firstName = u.firstName ∧ u'.lastName = u.lastName ∧ u'.hash = u.hash := by
  have hid : u.id = userId := by simpa using List.find?_some hfind
  have hp : prismaUserUpdate db userId emptyEditUserDto now
      = .ok (updatedUser emptyEditUserDto u now,
        { db with users := db.users.map (fun x =>
            if x.id == userId then updatedUser emptyEditUserDto u now else x) }) := by
    unfold prismaUserUpdate
    rw [hfind]
    rfl
  refine ⟨updatedUser emptyEditUserDto u now,
    { db with users := db.users.map (fun x =>
        if x.id == userId then updatedUser emptyEditUserDto u now else x) },
    ?_, ?_, rfl, rfl, rfl, rfl, rfl⟩
  · unfold UserService.editUser
    rw [hp]
  · exact List.mem_map.mpr ⟨u, List.mem_of_find?_eq_some hfind, by simp [hid]⟩

/-- Witness for C9 at a concrete store. -/
theorem editUser_empty_dto_witness :
    ∃ u' db',
      UserService.editUser sampleDb 1 emptyEditUserDto 5
        = .ok (deleteHash (UserView.ofUser u'), db') ∧
      u' ∈ db'.users ∧ u'.id = sampleUser.id ∧ u'.email = sampleUser.email ∧
      u'.firstName = sampleUser.firstName ∧ u'.lastName = sampleUser.lastName ∧
      u'.hash = sampleUser.hash :=
  editUser_empty_dto sampleDb 1 5 sampleUser rfl

/-- C10: `delete user.hash` acts on the returned object only — after a
successful edit the stored row still carries its password hash. -/
theorem editUser_hash_stays_stored (db : Db) (userId : Nat) (dto : EditUserDto) (now : Nat)
    (v : UserView) (db' : Db) (u : User)
    (hfind : db.users.find? (fun x => x.id == userId) = some u)
    (h : UserService.editUser db userId dto now = .ok (v, db')) :
    v.hash = none ∧ ∃ u', u' ∈ db'.users ∧ u'.id = userId ∧ u'.hash = u.hash := by
  obtain ⟨u0, hf0, _, hv, hdb⟩ := editUser_ok_unpack db userId dto now v db' h
  rw [hfind] at hf0
  injection hf0 with hu0
  subst hu0
  have hid : u.id = userId := by simpa using List.find?_some hfind
  subst hdb
  refine ⟨by rw [hv]; rfl, updatedUser dto u now, ?_, hid, rfl⟩
  exact List.mem_map.mpr ⟨u, List.mem_of_find?_eq_some hfind, by simp [hid]⟩

/-- Witness for C10 at a concrete store. -/
theorem editUser_hash_stays_stored_witness :
    sampleOutView.hash = none ∧
    ∃ u', u' ∈ sampleOutDb.users ∧ u'.id = 1 ∧ u'.hash = sampleUser.hash :=
  editUser_hash_stays_stored sampleDb 1 emptyEditUserDto 5 sampleOutView sampleOutDb
    sampleUser rfl rfl

/-- C2: signup fails with ConflictError exactly when a user with that email
already exists; otherwise it stores the user with a salted one-way hash of
the password and returns a signed token bound to the new user's id and
email. -/
theorem signup_spec (cfg : AuthConfig) (db : Db) (email password salt : String) (now : Nat) :
    (signup cfg db email password salt now = .error .conflictError ↔
      ∃ u, u ∈ db.users ∧ u.email = email) ∧
    (∀ tok db', signup cfg db email password salt now = .ok (tok, db') →
      (¬ ∃ u, u ∈ db.users ∧ u.email = email) ∧
      tok = signToken cfg.secret
        { sub := db.nextUserId, email := email, exp := now + cfg.tokenTtl } ∧
      ∃ u, u ∈ db'.users ∧ u.id = db.nextUserId ∧ u.email = email ∧
        u.hash = hashPw salt password) := by
  have hany : db.users.any (fun u => u.email == email) = true ↔
      ∃ u, u ∈ db.users ∧ u.email = email := by
    simp [List.any_eq_true]
  constructor
  · constructor
    · intro h
      unfold signup at h
      rw [← hany]
      by_contra hx
      rw [Bool.not_eq_true] at hx
      rw [hx] at h
      exact absurd h (by simp)
    · intro hx
      unfold signup
      rw [if_pos (hany.mpr hx)]
  · intro tok db' h
    unfold signup at h
    split at h
    · exact absurd h (by simp)
    · rename_i hx
      simp only [Except.ok.injEq, Prod.mk.injEq] at h
      obtain ⟨htok, hdb⟩ := h
      refine ⟨by rw [← hany]; simpa using hx, htok.symm, ?_⟩
      refine ⟨signupUser db email password salt now, ?_, rfl, rfl, rfl⟩
      rw [← hdb]
      exact List.mem_append_right _ (List.mem_singleton.mpr rfl)

/-- Witness for C2: signing up on the empty store succeeds and stores the
hashed credentials. -/
theorem signup_spec_witness :
    ∃ u, u ∈ signupDb.users ∧ u.id = 1 ∧ u.email = "mu@gmail.com" ∧
      u.hash = hashPw "s0" "123" :=
  ((signup_spec sampleCfg emptyDb "mu@gmail.com" "123" "s0" 0).2 signupTok signupDb rfl).2.2

/-- C3: login fails with UnauthorizedError exactly when no user with that
email exists or the stored hash does not match the supplied password;
otherwise it returns a signed token for that user. -/
theorem login_spec (cfg : AuthConfig) (db : Db) (email password : String) (now : Nat) :
    (login cfg db email password now = .error .unauthorizedError ↔
      (∀ u, u ∈ db.users → u.email ≠ email) ∨
      ∃ u, db.users.find? (fun x => x.email == email) = some u ∧
        verifyPw password u.hash = false) ∧
    (∀ u, db.users.find? (fun x => x.email == email) = some u →
      verifyPw password u.hash = true →
      login cfg db email password now
        = .ok (signToken cfg.secret
            { sub := u.id, email := u.email, exp := now + cfg.tokenTtl })) := by
  cases hf : db.users.find? (fun x => x.email == email) with
  | none =>
    have hnone : ∀ u, u ∈ db.users → u.email ≠ email := by
      intro u hu
      simpa using List.find?_eq_none.mp hf u hu
    have herr : login cfg db email password now = .error .unauthorizedError := by
      unfold login
      rw [hf]
    refine ⟨⟨fun _ => Or.inl hnone, fun _ => herr⟩, ?_⟩
    intro u hu
    exact absurd hu (by simp)
  | some u0 =>
    have hmem : u0 ∈ db.users := List.mem_of_find?_eq_some hf
    have hemail : u0.email = email := by simpa using List.find?_some hf
    by_cases hv : verifyPw password u0.hash = true
    · have hok : login cfg db email password now
          = .ok (signToken cfg.secret
              { sub := u0.id, email := u0.email, exp := now + cfg.tokenTtl }) := by
        unfold login
        rw [hf]
        simp [hv]
      refine ⟨⟨?_, ?_⟩, ?_⟩
      · intro h
        rw [hok] at h
        exact absurd h (by simp)
      · intro hcase
        exfalso
        rcases hcase with hall | ⟨u1, hf1, hv1⟩
        · exact hall u0 hmem hemail
        · injection hf1 with h1
          subst h1
          simp [hv] at hv1
      · intro u hu _
        injection hu with h1
        subst h1
        exact hok
    · have hv' : verifyPw password u0.hash = false := by simpa using hv
      have herr : login cfg db email password now = .error .unauthorizedError := by
        unfold login
        rw [hf]
        simp [hv']
      refine ⟨⟨fun _ => Or.inr ⟨u0, rfl, hv'⟩, fun _ => herr⟩, ?_⟩
      intro u hu hvu
      injection hu with h1
      subst h1
      exact absurd hvu (by simp [hv'])

/-- Witness for C3: logging in with the stored credentials returns the
signed token for that user. -/
theorem login_spec_witness :
    login sampleCfg sampleDb "mu@gmail.com" "123" 0
      = .ok (signToken 7 { sub := 1, email := "mu@gmail.com", exp := 60 }) :=
  (login_spec sampleCfg sampleDb "mu@gmail.com" "123" 0).2 sampleUser rfl rfl

/-- C4: the auth guard fails with 401 exactly when the bearer token is
missing (no header or a non-Bearer scheme), has an invalid signature, or is
expired; otherwise the decoded identity is injected into the request
context for downstream handlers. -/
theorem authGuard_spec (secret now : Nat) (req : Request) :
    (authGuard secret now req = .error .unauthorized401 ↔
      req.header = .missing ∨
      ∃ scheme tok, req.header = .presented scheme tok ∧
        (scheme ≠ "Bearer" ∨ tok.sig ≠ signature secret tok.payload ∨
          tok.payload.exp ≤ now)) ∧
    (∀ scheme tok req', req.header = .presented scheme tok →
      authGuard secret now req = .ok req' →
      req'.user = some { userId := tok.payload.sub, email := tok.payload.email } ∧
      scheme = "Bearer" ∧ tok.sig = signature secret tok.payload ∧
      now < tok.payload.exp) := by
  obtain ⟨hd, ru⟩ := req
  cases hd with
  | missing =>
    refine ⟨⟨fun _ => Or.inl rfl, fun _ => rfl⟩, ?_⟩
    intro scheme tok req' hpres
    exact absurd hpres (by simp)
  | presented scheme tok =>
    by_cases hs : scheme = "Bearer"
    · by_cases hsig : tok.sig = signature secret tok.payload
      · by_cases hexp : now < tok.payload.exp
        · have hok : authGuard secret now ⟨.presented scheme tok, ru⟩
              = .ok ⟨.presented scheme tok,
                  some { userId := tok.payload.sub, email := tok.payload.email }⟩ := by
            unfold authGuard
            simp [verifyToken, hs, hsig, hexp]
          refine ⟨⟨?_, ?_⟩, ?_⟩
          · intro h
            rw [hok] at h
            exact absurd h (by simp)
          · intro hcase
            exfalso
            rcases hcase with hmiss | ⟨s2, t2, hpres, hbad⟩
            · exact absurd hmiss (by simp)
            · injection hpres with h1 h2
              subst h1
              subst h2
              rcases hbad with hb | hb | hb
              · exact hb hs
              · exact hb hsig
              · exact absurd hexp (Nat.not_lt.mpr hb)
          · intro s2 t2 req' hpres hok2
            injection hpres with h1 h2
            subst h1
            subst h2
            rw [hok] at hok2
            injection hok2 with h3
            refine ⟨?_, hs, hsig, hexp⟩
            rw [← h3]
        · have herr : authGuard secret now ⟨.presented scheme tok, ru⟩
              = .error .unauthorized401 := by
            unfold authGuard
            simp [verifyToken, hexp]
          refine ⟨⟨fun _ => Or.inr ⟨scheme, tok, rfl,
            Or.inr (Or.inr (Nat.not_lt.mp hexp))⟩, fun _ => herr⟩, ?_⟩
          intro s2 t2 req' hpres hok2
          rw [herr] at hok2
          exact absurd hok2 (by simp)
      · have herr : authGuard secret now ⟨.presented scheme tok, ru⟩
            = .error .unauthorized401 := by
          unfold authGuard
          simp [verifyToken, hsig]
        refine ⟨⟨fun _ => Or.inr ⟨scheme, tok, rfl, Or.inr (Or.inl hsig)⟩,
          fun _ => herr⟩, ?_⟩
        intro s2 t2 req' hpres hok2
        rw [herr] at hok2
        exact absurd hok2 (by simp)
    · have herr : authGuard secret now ⟨.presented scheme tok, ru⟩
          = .error .unauthorized401 := by
        unfold authGuard
        simp [verifyToken, hs]
      refine ⟨⟨fun _ => Or.inr ⟨scheme, tok, rfl, Or.inl hs⟩, fun _ => herr⟩, ?_⟩
      intro s2 t2 req' hpres hok2
      rw [herr] at hok2
      exact absurd hok2 (by simp)

/-- Witness for C4: a well-signed unexpired bearer token passes the guard
and the decoded identity lands in the request context. -/
theorem authGuard_spec_witness :
    sampleGuardedReq.user = some { userId := 1, email := "mu@gmail.com" } ∧
    "Bearer" = "Bearer" ∧ signupTok.sig = signature 7 signupTok.payload ∧
    0 < signupTok.payload.exp :=
  (authGuard_spec 7 0 sampleReq).2 "Bearer" signupTok sampleGuardedReq rfl rfl

/-- C6: the owner-scoped bookmark operations — a read returns only a
bookmark owned by the requester, and a successful update or delete implies
the stored bookmark of that id is owned by the requester; a non-owner can
never read, mutate or delete it. -/
theorem bookmark_owner_scoped (db : Db) (userId bookmarkId : Nat)
    (dto : EditBookmarkDto) (now : Nat) :
    (∀ b, getBookmarkById db userId bookmarkId = some b → b.userId = userId) ∧
    (∀ b' db', editBookmarkById db userId bookmarkId dto now = .ok (b', db') →
      b'.userId = userId ∧
      ∃ b, b ∈ db.bookmarks ∧ b.id = bookmarkId ∧ b.userId = userId) ∧
    (∀ db', deleteBookmarkById db userId bookmarkId = .ok db' →
      ∃ b, b ∈ db.bookmarks ∧ b.id = bookmarkId ∧ b.userId = userId) := by
  refine ⟨?_, ?_, ?_⟩
  · intro b hb
    have hp := List.find?_some hb
    simp only [Bool.and_eq_true, beq_iff_eq] at hp
    exact hp.2
  · intro b' db' h
    unfold editBookmarkById at h
    split at h
    · exact absurd h (by simp)
    · rename_i b hf
      split at h
      · exact absurd h (by simp)
      · rename_i hown
        have hb : b.userId = userId := by simpa using hown
        have hid : b.id = bookmarkId := by simpa using List.find?_some hf
        simp only [Except.ok.injEq, Prod.mk.injEq] at h
        refine ⟨?_, b, List.mem_of_find?_eq_some hf, hid, hb⟩
        rw [← h.1]
        exact hb
  · intro db' h
    unfold deleteBookmarkById at h
    split at h
    · exact absurd h (by simp)
    · rename_i b hf
      split at h
      · exact absurd h (by simp)
      · rename_i hown
        exact ⟨b, List.mem_of_find?_eq_some hf,
          by simpa using List.find?_some hf, by simpa using hown⟩

/-- Witness for C6: deleting an owned bookmark succeeds, so the stored row
was owned by the requester. -/
theorem bookmark_owner_scoped_witness :
    ∃ b, b ∈ bookmarkDb.bookmarks ∧ b.id = 1 ∧ b.userId = 1 :=
  (bookmark_owner_scoped bookmarkDb 1 1 sampleEditBookmarkDto 0).2.2
    bookmarkDbDeleted rfl

/-- `find?` over a table extended with one fresh row: no old row matches,
so the result is decided by the new row alone. -/
theorem find?_append_fresh {α : Type} (l : List α) (a : α) (p : α → Bool)
    (h : ∀ x, x ∈ l → p x = false) :
    (l ++ [a]).find? p = if p a then some a else none := by
  induction l with
  | nil => cases hp : p a <;> simp [List.find?, hp]
  | cons x t ih =>
    have hx : p x = false := h x (by simp)
    simp only [List.cons_append, List.find?_cons, hx]
    exact ih (fun y hy => h y (by simp [hy]))

/-- Replacing rows of a given id is the identity on a table where no row
carries the id. -/
theorem map_replace_fresh (l : List Bookmark) (bid : Nat) (b2 : Bookmark)
    (h : ∀ x, x ∈ l → x.id ≠ bid) :
    l.map (fun x => if x.id = bid then b2 else x) = l := by
  induction l with
  | nil => rfl
  | cons x t ih =>
    have hx : x.id ≠ bid := h x (by simp)
    have ht := ih (fun y hy => h y (by simp [hy]))
    simp only [List.map_cons, ht]
    rw [if_neg hx]

/-- Filtering out a given id keeps a table where no row carries it. -/
theorem filter_keep_fresh (l : List Bookmark) (bid : Nat)
    (h : ∀ x, x ∈ l → (x.id == bid) = false) :
    l.filter (fun x => x.id != bid) = l := by
  rw [List.filter_eq_self]
  intro a ha
  exact bne_iff_ne.mpr (beq_eq_false_iff_ne.mp (h a ha))

/-- C7: creating a bookmark then reading it by id returns the created
fields; editing it then reading it returns the edited fields; deleting it
then listing the user's bookmarks no longer includes it. -/
theorem bookmark_round_trip (db : Db) (userId now now2 : Nat)
    (dto : CreateBookmarkDto) (dto2 : EditBookmarkDto)
    (hfresh : BookmarkIdsFresh db) :
    ∀ b db1, createBookmark db userId dto now = (b, db1) →
      (b.title = dto.title ∧ b.link = dto.link ∧ b.description = dto.description ∧
        b.userId = userId) ∧
      getBookmarkById db1 userId b.id = some b ∧
      ∃ b2 db2, editBookmarkById db1 userId b.id dto2 now2 = .ok (b2, db2) ∧
        b2.title = dto2.title.getD b.title ∧
        b2.link = dto2.link.getD b.link ∧
        b2.description = (match dto2.description with
          | some s => some s
          | none => b.description) ∧
        getBookmarkById db2 userId b.id = some b2 ∧
        ∃ db3, deleteBookmarkById db2 userId b.id = .ok db3 ∧
          ∀ x, x ∈ getBookmarks db3 userId → x.id ≠ b.id := by
  intro b db1 hc
  unfold createBookmark at hc
  injection hc with hb hdb1
  subst hb
  subst hdb1
  have holdN : ∀ x, x ∈ db.bookmarks → x.id ≠ (newBookmark db userId dto now).id :=
    fun x hx => Nat.ne_of_lt (hfresh x hx)
  have holdB : ∀ x, x ∈ db.bookmarks →
      (x.id == (newBookmark db userId dto now).id) = false := fun x hx =>
    beq_eq_false_iff_ne.mpr (holdN x hx)
  have hnu : (newBookmark db userId dto now).userId = userId := rfl
  have hb2u : (updatedBookmark dto2 (newBookmark db userId dto now) now2).userId
      = userId := rfl
  have hfind1 : (db.bookmarks ++ [newBookmark db userId dto now]).find?
      (fun x => x.id == (newBookmark db userId dto now).id && x.userId == userId)
      = some (newBookmark db userId dto now) := by
    rw [find?_append_fresh _ _ _ (fun x hx => by simp [holdB x hx])]
    simp [newBookmark]
  have hfind2 : (db.bookmarks ++ [newBookmark db userId dto now]).find?
      (fun x => x.id == (newBookmark db userId dto now).id)
      = some (newBookmark db userId dto now) := by
    rw [find?_append_fresh _ _ _ holdB]
    simp
  have hedit : editBookmarkById
      { db with
          bookmarks := db.bookmarks ++ [newBookmark db userId dto now],
          nextBookmarkId := db.nextBookmarkId + 1 } userId
      (newBookmark db userId dto now).id dto2 now2
      = .ok (updatedBookmark dto2 (newBookmark db userId dto now) now2,
        { db with
            bookmarks := db.bookmarks
              ++ [updatedBookmark dto2 (newBookmark db userId dto now) now2],
            nextBookmarkId := db.nextBookmarkId + 1 }) := by
    unfold editBookmarkById
    dsimp only
    rw [hfind2]
    simp [map_replace_fresh _ _ _ holdN, hnu]
  have hfind3 : (db.bookmarks
      ++ [updatedBookmark dto2 (newBookmark db userId dto now) now2]).find?
      (fun x => x.id == (newBookmark db userId dto now).id && x.userId == userId)
      = some (updatedBookmark dto2 (newBookmark db userId dto now) now2) := by
    rw [find?_append_fresh _ _ _ (fun x hx => by simp [holdB x hx])]
    simp [updatedBookmark, applyEditBookmarkDto, newBookmark]
  have hfind4 : (db.bookmarks
      ++ [updatedBookmark dto2 (newBookmark db userId dto now) now2]).find?
      (fun x => x.id == (newBookmark db userId dto now).id)
      = some (updatedBookmark dto2 (newBookmark db userId dto now) now2) := by
    rw [find?_append_fresh _ _ _ holdB]
    simp [updatedBookmark, applyEditBookmarkDto, newBookmark]
  have hfilter : (db.bookmarks
      ++ [updatedBookmark dto2 (newBookmark db userId dto now) now2]).filter
      (fun x => x.id != (newBookmark db userId dto now).id) = db.bookmarks := by
    rw [List.filter_append, filter_keep_fresh _ _ holdB]
    simp [updatedBookmark, applyEditBookmarkDto, newBookmark]
  have hdel : deleteBookmarkById
      { db with
          bookmarks := db.bookmarks
            ++ [updatedBookmark dto2 (newBookmark db userId dto now) now2],
          nextBookmarkId := db.nextBookmarkId + 1 } userId
      (newBookmark db userId dto now).id
      = .ok { db with
          bookmarks := db.bookmarks,
          nextBookmarkId := db.nextBookmarkId + 1 } := by
    unfold deleteBookmarkById
    dsimp only
    rw [hfind4]
    simp [hfilter, hb2u]
  refine ⟨⟨rfl, rfl, rfl, rfl⟩, hfind1,
    updatedBookmark dto2 (newBookmark db userId dto now) now2, _,
    hedit, rfl, rfl, rfl, hfind3, _, hdel, ?_⟩
  intro x hx
  have hx2 : x ∈ db.bookmarks := (List.mem_filter.mp hx).1
  exact Nat.ne_of_lt (hfresh x hx2)

/-- Witness for C7: the e2e scenario — create, read, edit, read, delete,
list — on a store holding one signed-up user. -/
theorem bookmark_round_trip_witness :
    (sampleBookmark.title = sampleCreateDto.title ∧
      sampleBookmark.link = sampleCreateDto.link ∧
      sampleBookmark.description = sampleCreateDto.description ∧
      sampleBookmark.userId = 1) ∧
    getBookmarkById bookmarkDb 1 sampleBookmark.id = some sampleBookmark ∧
    ∃ b2 db2, editBookmarkById bookmarkDb 1 sampleBookmark.id
        sampleEditBookmarkDto 3 = .ok (b2, db2) ∧
      b2.title = sampleEditBookmarkDto.title.getD sampleBookmark.title ∧
      b2.link = sampleEditBookmarkDto.link.getD sampleBookmark.link ∧
      b2.description = (match sampleEditBookmarkDto.description with
        | some s => some s
        | none => sampleBookmark.description) ∧
      getBookmarkById db2 1 sampleBookmark.id = some b2 ∧
      ∃ db3, deleteBookmarkById db2 1 sampleBookmark.id = .ok db3 ∧
        ∀ x, x ∈ getBookmarks db3 1 → x.id ≠ sampleBookmark.id :=
  bookmark_round_trip signupDb 1 0 3 sampleCreateDto sampleEditBookmarkDto
    (fun b hb => absurd hb (by simp [signupDb])) sampleBookmark bookmarkDb rfl

/-- Updating the rows of one user id keeps emails pairwise distinct, given
distinct ids, distinct emails, and that no row of another id carries the
updated row's email. -/
theorem pairwise_email_update (l : List User) (userId : Nat) (u' : User)
    (hids : l.Pairwise (fun a b => a.id ≠ b.id))
    (hemails : l.Pairwise (fun a b => a.email ≠ b.email))
    (hclash : ∀ w, w ∈ l → w.id ≠ userId → w.email ≠ u'.email) :
    (l.map (fun x => if x.id == userId then u' else x)).Pairwise
      (fun a b => a.email ≠ b.email) := by
  induction l with
  | nil => simp
  | cons x t ih =>
    rcases List.pairwise_cons.mp hids with ⟨hxid, hids'⟩
    rcases List.pairwise_cons.mp hemails with ⟨hxem, hemails'⟩
    have hcl' : ∀ w, w ∈ t → w.id ≠ userId → w.email ≠ u'.email :=
      fun w hw => hclash w (by simp [hw])
    have iht := ih hids' hemails' hcl'
    simp only [List.map_cons]
    refine List.pairwise_cons.mpr ⟨?_, iht⟩
    intro y hy
    rcases List.mem_map.mp hy with ⟨z, hz, hzy⟩
    by_cases hxU : x.id = userId
    · have hfx : (if x.id == userId then u' else x) = u' := by simp [hxU]
      have hzU : z.id ≠ userId := by
        intro hzu
        exact (hxid z hz) (by rw [hxU, hzu])
      have hfz : (if z.id == userId then u' else z) = z := by simp [hzU]
      rw [hfx, ← hzy, hfz]
      exact fun he => (hcl' z hz hzU) he.symm
    · have hfx : (if x.id == userId then u' else x) = x := by simp [hxU]
      rw [hfx, ← hzy]
      by_cases hzU : z.id = userId
      · have hfz : (if z.id == userId then u' else z) = u' := by simp [hzU]
        rw [hfz]
        exact hclash x (by simp) hxU
      · have hfz : (if z.id == userId then u' else z) = z := by simp [hzU]
        rw [hfz]
        exact hxem z hz

/-- Updating the rows of one user id keeps ids pairwise distinct when the
written row keeps that id. -/
theorem pairwise_id_update (l : List User) (userId : Nat) (u' : User)
    (hid' : u'.id = userId)
    (hids : l.Pairwise (fun a b => a.id ≠ b.id)) :
    (l.map (fun x => if x.id == userId then u' else x)).Pairwise
      (fun a b => a.id ≠ b.id) := by
  have hfid : ∀ x : User, (if x.id == userId then u' else x).id = x.id := by
    intro x
    by_cases hx : x.id = userId
    · simp [hx, hid']
    · simp [hx]
  exact List.Pairwise.map _ (fun a b hab => by rw [hfid, hfid]; exact hab) hids

/-- Signup preserves the database invariant. -/
theorem dbInv_signup (cfg : AuthConfig) (db : Db) (email password salt : String)
    (now : Nat) (tok : Token) (db' : Db)
    (h : signup cfg db email password salt now = .ok (tok, db'))
    (hinv : DbInv db) : DbInv db' := by
  obtain ⟨hem, hids, hbound⟩ := hinv
  unfold signup at h
  split at h
  · exact absurd h (by simp)
  · rename_i hx
    have hfree : ∀ w, w ∈ db.users → w.email ≠ email := by
      intro w hw hwe
      exact hx (List.any_eq_true.mpr ⟨w, hw, by simp [hwe]⟩)
    simp only [Except.ok.injEq, Prod.mk.injEq] at h
    rw [← h.2]
    refine ⟨?_, ?_, ?_⟩
    · refine List.pairwise_append.mpr ⟨hem, by simp, ?_⟩
      intro a ha b hb
      rw [List.mem_singleton.mp hb]
      exact hfree a ha
    · refine List.pairwise_append.mpr ⟨hids, by simp, ?_⟩
      intro a ha b hb
      rw [List.mem_singleton.mp hb]
      exact Nat.ne_of_lt (hbound a ha)
    · intro w hw
      rcases List.mem_append.mp hw with hw1 | hw2
      · exact Nat.lt_succ_of_lt (hbound w hw1)
      · rw [List.mem_singleton.mp hw2]
        exact Nat.lt_succ_self _

/-- `UserService.editUser` preserves the database invariant: the primary
key is never rewritten and the unique-email check guards the email
column. -/
theorem dbInv_editUser (db : Db) (userId : Nat) (dto : EditUserDto) (now : Nat)
    (v : UserView) (db' : Db)
    (h : UserService.editUser db userId dto now = .ok (v, db'))
    (hinv : DbInv db) : DbInv db' := by
  obtain ⟨u, hf, hc, _, hdb⟩ := editUser_ok_unpack db userId dto now v db' h
  have hid : u.id = userId := by simpa using List.find?_some hf
  have humem : u ∈ db.users := List.mem_of_find?_eq_some hf
  obtain ⟨hem, hids, hbound⟩ := hinv
  have hid' : (updatedUser dto u now).id = userId := hid
  have hclash : ∀ w, w ∈ db.users → w.id ≠ userId →
      w.email ≠ (updatedUser dto u now).email := by
    intro w hw hwid
    cases hde : dto.email with
    | some e =>
      have hue : (updatedUser dto u now).email = e := by
        simp [updatedUser, applyEditUserDto, hde]
      rw [hue]
      have hc' : db.users.any (fun x => x.id != userId && x.email == e) = false := by
        simpa [emailClash, hde] using hc
      intro hwe
      have hc2 : db.users.any (fun x => x.id != userId && x.email == e) = true :=
        List.any_eq_true.mpr ⟨w, hw, by simp [bne_iff_ne, hwid, hwe]⟩
      rw [hc'] at hc2
      exact absurd hc2 (by simp)
    | none =>
      have hue : (updatedUser dto u now).email = u.email := by
        simp [updatedUser, applyEditUserDto, hde]
      rw [hue]
      have hwne : w ≠ u := fun hq => hwid (by rw [hq, hid])
      exact List.Pairwise.forall (fun _ _ hab => Ne.symm hab) hem hw humem hwne
  subst hdb
  refine ⟨pairwise_email_update db.users userId (updatedUser dto u now) hids hem hclash,
    pairwise_id_update db.users userId (updatedUser dto u now) hid' hids, ?_⟩
  intro x hx
  rcases List.mem_map.mp hx with ⟨z, hz, hzx⟩
  have hfz : (if z.id == userId then updatedUser dto u now else z).id = z.id := by
    by_cases hq : z.id = userId
    · simp [hq, hid']
    · simp [hq]
  rw [← hzx, hfz]
  exact hbound z hz

/-- Creating a bookmark does not touch the user table. -/
theorem dbInv_createBookmark (db : Db) (userId : Nat) (dto : CreateBookmarkDto)
    (now : Nat) (hinv : DbInv db) : DbInv (createBookmark db userId dto now).2 :=
  hinv

/-- Editing a bookmark does not touch the user table. -/
theorem dbInv_editBookmark (db : Db) (userId bookmarkId : Nat)
    (dto : EditBookmarkDto) (now : Nat) (b' : Bookmark) (db' : Db)
    (h : editBookmarkById db userId bookmarkId dto now = .ok (b', db'))
    (hinv : DbInv db) : DbInv db' := by
  unfold editBookmarkById at h
  split at h
  · exact absurd h (by simp)
  · split at h
    · exact absurd h (by simp)
    · simp only [Except.ok.injEq, Prod.mk.injEq] at h
      rw [← h.2]
      exact hinv

/-- Deleting a bookmark does not touch the user table. -/
theorem dbInv_deleteBookmark (db : Db) (userId bookmarkId : Nat) (db' : Db)
    (h : deleteBookmarkById db userId bookmarkId = .ok db')
    (hinv : DbInv db) : DbInv db' := by
  unfold deleteBookmarkById at h
  split at h
  · exact absurd h (by simp)
  · split at h
    · exact absurd h (by simp)
    · simp only [Except.ok.injEq] at h
      rw [← h]
      exact hinv

/-- Every public mutating operation preserves the database invariant. -/
theorem dbInv_step (db db' : Db) (hstep : ApiStep db db') (hinv : DbInv db) :
    DbInv db' := by
  cases hstep
  · rename_i cfg email password salt now tok h
    exact dbInv_signup cfg db email password salt now tok db' h hinv
  · rename_i userId dto now v h
    exact dbInv_editUser db userId dto now v db' h hinv
  · rename_i userId dto now
    exact dbInv_createBookmark db userId dto now hinv
  · rename_i userId bookmarkId dto now b h
    exact dbInv_editBookmark db userId bookmarkId dto now b db' h hinv
  · rename_i userId bookmarkId h
    exact dbInv_deleteBookmark db userId bookmarkId db' h hinv

/-- The invariant holds in every reachable state. -/
theorem dbInv_reachable (db : Db) (h : Reachable db) : DbInv db := by
  unfold Reachable at h
  induction h with
  | refl =>
    exact ⟨List.Pairwise.nil, List.Pairwise.nil, fun u hu => absurd hu (by simp [emptyDb])⟩
  | tail hsteps hstep ih => exact dbInv_step _ _ hstep ih

/-- C5: in every store state reachable by the public operations (signup,
login, editUser, bookmark CRUD), no two stored users share an email. -/
theorem reachable_emails_unique (db : Db) (h : Reachable db) :
    db.users.Pairwise (fun a b => a.email ≠ b.email) :=
  (dbInv_reachable db h).1

/-- Witness for C5 at the state reached by one signup from the empty
store. -/
theorem reachable_emails_unique_witness :
    signupDb.users.Pairwise (fun a b => a.email ≠ b.email) :=
  reachable_emails_unique signupDb
    (Relation.ReflTransGen.single
      (ApiStep.signupStep emptyDb sampleCfg "mu@gmail.com" "123" "s0" 0
        signupTok signupDb rfl))
